import Mathlib

/-
Formal model of the psychrometric state-resolution engine in src/app.js.

Modeling conventions for the shallow embedding:

JavaScript numbers are modeled by the type JS := Option ℝ, where some x is
the finite value x (with exact real arithmetic in place of IEEE doubles)
and none stands for a non-finite value (NaN, Infinity or -Infinity,
which the model does not distinguish).  The lifted operations propagate
none, which matches JavaScript: every arithmetic operation with a NaN or
infinite operand yields a NaN or infinite result.  Three deliberate
abstractions, each irrelevant to the concrete inputs used below:
finite-overflow to Infinity is not modeled; comparisons with a non-finite
operand are modeled as false (exactly right for NaN, not always for
infinities); Math.exp at -Infinity (which yields the finite 0) is modeled
as non-finite.  Division by zero yields a non-finite value in JavaScript
and none here.

Each solver from app.js becomes a function into Except Err Core, where a
thrown Error at a given source line is the corresponding Err constructor
and the returned state object is a Core record.  solveState attaches the
mass/volume-flow fields afterwards, exactly as the source mutates the
returned object.  The source's final `state.Tdb === undefined` check can
never fire (every solver returns an object with a Tdb field) and is
omitted.  The UI, chart and formatting layers are out of scope.
-/

open Classical

namespace Psychro

/-- A JavaScript number: some x is a finite value, none is non-finite. -/
abbrev JS := Option ℝ

/-- Embed a finite numeric literal. -/
def jnum (x : ℝ) : JS := some x

def jadd : JS → JS → JS
  | some x, some y => some (x + y)
  | _, _ => none

def jsub : JS → JS → JS
  | some x, some y => some (x - y)
  | _, _ => none

def jmul : JS → JS → JS
  | some x, some y => some (x * y)
  | _, _ => none

/-- Division; a zero divisor gives a non-finite result in JavaScript. -/
noncomputable def jdiv : JS → JS → JS
  | some x, some y => if y = 0 then none else some (x / y)
  | _, _ => none

noncomputable def jexp : JS → JS
  | some x => some (Real.exp x)
  | none => none

/-- Math.log: nonpositive arguments give -Infinity or NaN. -/
noncomputable def jlog : JS → JS
  | some x => if x ≤ 0 then none else some (Real.log x)
  | none => none

/-- Math.max: NaN-absorbing. -/
def jmax : JS → JS → JS
  | some x, some y => some (max x y)
  | _, _ => none

/-- Math.min: NaN-absorbing. -/
def jmin : JS → JS → JS
  | some x, some y => some (min x y)
  | _, _ => none

/-- The comparison a < b; false when an operand is non-finite. -/
def jlt : JS → JS → Prop
  | some x, some y => x < y
  | _, _ => False

/-- The comparison a > b; false when an operand is non-finite. -/
def jgt (a b : JS) : Prop := jlt b a

/-- The comparison a >= b; false when an operand is non-finite. -/
def jge : JS → JS → Prop
  | some x, some y => y ≤ x
  | _, _ => False

/- The CONSTANTS table of app.js. -/
namespace CONSTANTS

def R_DA : ℝ := 287.058

def C_DA : ℝ := 1.006

def H_FG_0 : ℝ := 2501

def H_FG_T : ℝ := 1.86

def K_W : ℝ := 0.622

def P_STD : ℝ := 101325

def R_V : ℝ := 461.52

end CONSTANTS

/-- Magnus formula, saturationVaporPressure(T) = 611.2 * exp(17.27*T/(237.7+T)). -/
noncomputable def saturationVaporPressure (T : JS) : JS :=
  jmul (jnum 611.2) (jexp (jdiv (jmul (jnum 17.27) T) (jadd (jnum 237.7) T)))

/-- Inverse Magnus formula: T = 237.7*ln(p/611.2) / (17.27 - ln(p/611.2)). -/
noncomputable def temperatureFromSaturationPressure (p_sat : JS) : JS :=
  let ratio := jlog (jdiv p_sat (jnum 611.2))
  jdiv (jmul (jnum 237.7) ratio) (jsub (jnum 17.27) ratio)

/-- W = 0.622*Pv/(P_total - Pv); returns Infinity (here: none) when Pv >= P_total. -/
noncomputable def humidityRatioFromVaporPressure (Pv : JS) (P_total : ℝ) : JS :=
  if jge Pv (jnum P_total) then none
  else jdiv (jmul (jnum CONSTANTS.K_W) Pv) (jsub (jnum P_total) Pv)

/-- Pv = P_total*W/(0.622 + W). -/
noncomputable def vaporPressureFromHumidityRatio (W : JS) (P_total : ℝ) : JS :=
  jdiv (jmul (jnum P_total) W) (jadd (jnum CONSTANTS.K_W) W)

/-- W_sat(T) = humidityRatioFromVaporPressure(p_sat(T), P_total). -/
noncomputable def saturationHumidityRatio (T : JS) (P_total : ℝ) : JS :=
  humidityRatioFromVaporPressure (saturationVaporPressure T) P_total

/-- h = C_DA*T + W*(H_FG_0 + H_FG_T*T). -/
noncomputable def enthalpy (T W : JS) : JS :=
  jadd (jmul (jnum CONSTANTS.C_DA) T)
    (jmul W (jadd (jnum CONSTANTS.H_FG_0) (jmul (jnum CONSTANTS.H_FG_T) T)))

/-- rho = P_total / (R_mix * T_K) with R_mix = R_DA*(1+1.6078*W)/(1+W). -/
noncomputable def density (Tdb W : JS) (P_total : ℝ) : JS :=
  let T_K := jadd Tdb (jnum 273.15)
  let R_mix := jdiv (jmul (jnum CONSTANTS.R_DA) (jadd (jnum 1) (jmul (jnum 1.6078) W)))
    (jadd (jnum 1) W)
  jdiv (jnum P_total) (jmul R_mix T_K)

/-- V_dot = (m_da / rho) * 3.6. -/
noncomputable def volumetricFlow (m_da rho : JS) : JS :=
  jmul (jdiv m_da rho) (jnum 3.6)

/--
The shared shape of the four inlined while loops:
`while (hi - lo > tol && iterations < maxIterations)` with body
`mid := (lo+hi)/2; if f(mid) < target then lo := mid else hi := mid`.
The fuel argument is the remaining number of allowed iterations, so a call
with fuel maxIterations is exactly the source loop.
-/
noncomputable def bisectLoop (f : JS → JS) (target : JS) (tol : ℝ) :
    ℕ → JS × JS → JS × JS
  | 0, s => s
  | Nat.succ n, (lo, hi) =>
    if jgt (jsub hi lo) (jnum tol) then
      let mid := jdiv (jadd lo hi) (jnum 2)
      if jlt (f mid) target then bisectLoop f target tol n (mid, hi)
      else bisectLoop f target tol n (lo, mid)
    else (lo, hi)

/-- wetBulbTemperature(Tdb, W, P_total): bisection with tolerance 0.001 and cap 50. -/
noncomputable def wetBulbTemperature (Tdb W : JS) (P_total : ℝ) : JS :=
  let h_target := enthalpy Tdb W
  let p_v := vaporPressureFromHumidityRatio W P_total
  let T_dew := temperatureFromSaturationPressure p_v
  let T_low := jmax (jsub T_dew (jnum 5)) (jnum (-50))
  let r := bisectLoop (fun T => enthalpy T (saturationHumidityRatio T P_total))
    h_target 0.001 50 (T_low, Tdb)
  jdiv (jadd r.1 r.2) (jnum 2)

/-- The state object a pair solver returns (before flow fields are attached). -/
structure Core where
  Tdb : JS
  W : JS
  RH : JS
  h : JS
  Twb : JS
  T_dew : JS
  Pv : JS
  rho : JS
  P_total : ℝ

/-- The errors thrown by solveState and the pair solvers, one per throw site. -/
inductive Err
  | missingInput
  | equalVars
  | unsupportedPair (v1 v2 : String)
  | rhRange
  | impossibleState
  | negativeW
  | supersaturated
  | twbAboveTdb
  | tdpAboveTdb
  | supersaturatedPv
deriving DecidableEq

noncomputable def solveFromTdbRH (Tdb RH : JS) (P_total : ℝ) : Except Err Core :=
  if jlt RH (jnum 0) ∨ jgt RH (jnum 100) then Except.error Err.rhRange
  else
    let p_sat := saturationVaporPressure Tdb
    let Pv := jmul (jdiv RH (jnum 100)) p_sat
    let W := humidityRatioFromVaporPressure Pv P_total
    if jlt W (jnum 0) then Except.error Err.impossibleState
    else Except.ok
      { Tdb := Tdb, W := W, RH := RH, h := enthalpy Tdb W,
        Twb := wetBulbTemperature Tdb W P_total,
        T_dew := temperatureFromSaturationPressure Pv,
        Pv := Pv, rho := density Tdb W P_total, P_total := P_total }

noncomputable def solveFromTdbW (Tdb W : JS) (P_total : ℝ) : Except Err Core :=
  if jlt W (jnum 0) then Except.error Err.negativeW
  else
    let Pv := vaporPressureFromHumidityRatio W P_total
    let p_sat := saturationVaporPressure Tdb
    let RH := jdiv (jmul (jnum 100) Pv) p_sat
    if jgt RH (jnum 100.5) then Except.error Err.supersaturated
    else Except.ok
      { Tdb := Tdb, W := W, RH := jmin RH (jnum 100), h := enthalpy Tdb W,
        Twb := wetBulbTemperature Tdb W P_total,
        T_dew := temperatureFromSaturationPressure Pv,
        Pv := Pv, rho := density Tdb W P_total, P_total := P_total }

noncomputable def solveFromTdbH (Tdb h_target : JS) (P_total : ℝ) : Except Err Core :=
  let W_max := saturationHumidityRatio Tdb P_total
  let r := bisectLoop (fun Wm => enthalpy Tdb Wm) h_target 0.000001 100 (jnum 0, W_max)
  let W := jdiv (jadd r.1 r.2) (jnum 2)
  let Pv := vaporPressureFromHumidityRatio W P_total
  let p_sat := saturationVaporPressure Tdb
  Except.ok
    { Tdb := Tdb, W := W, RH := jdiv (jmul (jnum 100) Pv) p_sat, h := h_target,
      Twb := wetBulbTemperature Tdb W P_total,
      T_dew := temperatureFromSaturationPressure Pv,
      Pv := Pv, rho := density Tdb W P_total, P_total := P_total }

noncomputable def solveFromTdbTwb (Tdb Twb : JS) (P_total : ℝ) : Except Err Core :=
  if jgt Twb Tdb then Except.error Err.twbAboveTdb
  else
    let W_sat_wb := saturationHumidityRatio Twb P_total
    let h_target := enthalpy Twb W_sat_wb
    let W_sat := saturationHumidityRatio Tdb P_total
    let r := bisectLoop (fun Wm => enthalpy Tdb Wm) h_target 0.000001 100 (jnum 0, W_sat)
    let W := jdiv (jadd r.1 r.2) (jnum 2)
    let Pv := vaporPressureFromHumidityRatio W P_total
    let p_sat := saturationVaporPressure Tdb
    Except.ok
      { Tdb := Tdb, W := W, RH := jdiv (jmul (jnum 100) Pv) p_sat,
        h := enthalpy Tdb W, Twb := Twb,
        T_dew := temperatureFromSaturationPressure Pv,
        Pv := Pv, rho := density Tdb W P_total, P_total := P_total }

noncomputable def solveFromTdbTdp (Tdb Tdp : JS) (P_total : ℝ) : Except Err Core :=
  if jgt Tdp (jadd Tdb (jnum 0.1)) then Except.error Err.tdpAboveTdb
  else
    let Pv := saturationVaporPressure Tdp
    let W := humidityRatioFromVaporPressure Pv P_total
    let p_sat := saturationVaporPressure Tdb
    Except.ok
      { Tdb := Tdb, W := W, RH := jdiv (jmul (jnum 100) Pv) p_sat,
        h := enthalpy Tdb W, Twb := wetBulbTemperature Tdb W P_total,
        T_dew := Tdp, Pv := Pv, rho := density Tdb W P_total, P_total := P_total }

noncomputable def solveFromWH (W h_target : JS) (P_total : ℝ) : Except Err Core :=
  let r := bisectLoop (fun T => enthalpy T W) h_target 0.01 100 (jnum (-50), jnum 100)
  let Tdb := jdiv (jadd r.1 r.2) (jnum 2)
  let Pv := vaporPressureFromHumidityRatio W P_total
  let p_sat := saturationVaporPressure Tdb
  Except.ok
    { Tdb := Tdb, W := W, RH := jdiv (jmul (jnum 100) Pv) p_sat, h := h_target,
      Twb := wetBulbTemperature Tdb W P_total,
      T_dew := temperatureFromSaturationPressure Pv,
      Pv := Pv, rho := density Tdb W P_total, P_total := P_total }

noncomputable def solveFromTdbPv (Tdb Pv : JS) (P_total : ℝ) : Except Err Core :=
  let W := humidityRatioFromVaporPressure Pv P_total
  let p_sat := saturationVaporPressure Tdb
  let RH := jdiv (jmul (jnum 100) Pv) p_sat
  if jgt RH (jnum 100.5) then Except.error Err.supersaturatedPv
  else Except.ok
    { Tdb := Tdb, W := W, RH := jmin RH (jnum 100), h := enthalpy Tdb W,
      Twb := wetBulbTemperature Tdb W P_total,
      T_dew := temperatureFromSaturationPressure Pv,
      Pv := Pv, rho := density Tdb W P_total, P_total := P_total }

noncomputable def solveFromRHW (RH W : JS) (P_total : ℝ) : Except Err Core :=
  let Pv := vaporPressureFromHumidityRatio W P_total
  let p_sat_target := jdiv (jmul (jnum 100) Pv) RH
  let Tdb := temperatureFromSaturationPressure p_sat_target
  Except.ok
    { Tdb := Tdb, W := W, RH := RH, h := enthalpy Tdb W,
      Twb := wetBulbTemperature Tdb W P_total,
      T_dew := temperatureFromSaturationPressure Pv,
      Pv := Pv, rho := density Tdb W P_total, P_total := P_total }

/-- The nine variable-kind identifiers accepted by the UI selects. -/
inductive VarKind
  | tdb
  | w
  | rh
  | h
  | twb
  | tdp
  | pv
  | m_da
  | v_dot
deriving DecidableEq

/-- The string identifier of a variable kind, as used by the dispatch keys. -/
def VarKind.keyStr : VarKind → String
  | .tdb => "tdb"
  | .w => "w"
  | .rh => "rh"
  | .h => "h"
  | .twb => "twb"
  | .tdp => "tdp"
  | .pv => "pv"
  | .m_da => "m_da"
  | .v_dot => "v_dot"

/-- Lexicographic order on char lists by code point, as used by the default
JavaScript Array.prototype.sort comparator on strings. -/
def charListLt : List Char → List Char → Bool
  | [], [] => false
  | [], _ :: _ => true
  | _ :: _, [] => false
  | a :: as, b :: bs =>
    if a.toNat < b.toNat then true
    else if b.toNat < a.toNat then false
    else charListLt as bs

/-- The default JavaScript string comparison (by UTF-16 code units; the
identifiers here are ASCII, where code units and code points agree). -/
def jsStrLt (s t : String) : Bool := charListLt s.data t.data

/-- The pair key `[var1, var2].sort().join("+")` of solveState. -/
def sortedKey (a b : VarKind) : String :=
  if jsStrLt b.keyStr a.keyStr then b.keyStr ++ "+" ++ a.keyStr
  else a.keyStr ++ "+" ++ b.keyStr

/-- The full state returned by solveState: the solver core plus flow fields. -/
structure PsyState extends Core where
  m_da : JS
  V_dot : JS

/-- The argument object of solveState; none models a missing selection or a null value. -/
structure Inputs where
  var1 : Option VarKind
  val1 : Option JS
  var2 : Option VarKind
  val2 : Option JS
  P_total : ℝ
  m_da_ref : ℝ

/--
The flow-field postlude of solveState (source lines 334 to 347): m_da
defaults to m_da_ref unless m_da was an input, V_dot is derived from m_da
and rho unless V_dot was an input, in which case m_da is back-derived.
The final `state.P_total = P_total` assignment rewrites the same value the
solver already stored and is a no-op here.
-/
noncomputable def attachFlows (v1 v2 : VarKind) (x1 x2 : JS) (m_da_ref : ℝ)
    (c : Core) : PsyState :=
  let m_da0 : JS :=
    if v1 = VarKind.m_da ∨ v2 = VarKind.m_da then
      (if v1 = VarKind.m_da then x1 else x2)
    else jnum m_da_ref
  let V_dot0 : JS := volumetricFlow m_da0 c.rho
  let V_dot : JS :=
    if v1 = VarKind.v_dot ∨ v2 = VarKind.v_dot then
      (if v1 = VarKind.v_dot then x1 else x2)
    else V_dot0
  let m_da : JS :=
    if v1 = VarKind.v_dot ∨ v2 = VarKind.v_dot then jmul (jdiv V_dot (jnum 3.6)) c.rho
    else m_da0
  { toCore := c, m_da := m_da, V_dot := V_dot }

noncomputable def solveState (i : Inputs) : Except Err PsyState :=
  match i.var1, i.var2, i.val1, i.val2 with
  | some v1, some v2, some x1, some x2 =>
    if v1 = v2 then Except.error Err.equalVars
    else
      let key := sortedKey v1 v2
      let st : Except Err Core :=
        if key = "rh+tdb" then
          solveFromTdbRH (if v1 = VarKind.tdb then x1 else x2)
            (if v1 = VarKind.rh then x1 else x2) i.P_total
        else if key = "tdb+w" then
          solveFromTdbW (if v1 = VarKind.tdb then x1 else x2)
            (if v1 = VarKind.w then x1 else x2) i.P_total
        else if key = "h+tdb" then
          solveFromTdbH (if v1 = VarKind.tdb then x1 else x2)
            (if v1 = VarKind.h then x1 else x2) i.P_total
        else if key = "tdb+twb" then
          solveFromTdbTwb (if v1 = VarKind.tdb then x1 else x2)
            (if v1 = VarKind.twb then x1 else x2) i.P_total
        else if key = "tdp+tdb" then
          solveFromTdbTdp (if v1 = VarKind.tdb then x1 else x2)
            (if v1 = VarKind.tdp then x1 else x2) i.P_total
        else if key = "h+w" then
          solveFromWH (if v1 = VarKind.w then x1 else x2)
            (if v1 = VarKind.h then x1 else x2) i.P_total
        else if key = "pv+tdb" then
          solveFromTdbPv (if v1 = VarKind.tdb then x1 else x2)
            (if v1 = VarKind.pv then x1 else x2) i.P_total
        else if key = "rh+w" then
          solveFromRHW (if v1 = VarKind.rh then x1 else x2)
            (if v1 = VarKind.w then x1 else x2) i.P_total
        else Except.error (Err.unsupportedPair v1.keyStr v2.keyStr)
      Except.map (attachFlows v1 v2 x1 x2 i.m_da_ref) st
  | _, _, _, _ => Except.error Err.missingInput

/-- The enthalpy formula as a function on reals. -/
noncomputable def enthalpyR (T W : ℝ) : ℝ :=
  CONSTANTS.C_DA * T + W * (CONSTANTS.H_FG_0 + CONSTANTS.H_FG_T * T)

/-- The bisection loop as a function on reals, for loops whose test function
stays finite on finite inputs. -/
noncomputable def bisectR (g : ℝ → ℝ) (t tol : ℝ) : ℕ → ℝ × ℝ → ℝ × ℝ
  | 0, s => s
  | Nat.succ n, (lo, hi) =>
    if tol < hi - lo then
      let mid := (lo + hi) / 2
      if g mid < t then bisectR g t tol n (mid, hi)
      else bisectR g t tol n (lo, mid)
    else (lo, hi)

/-- The dry-bulb temperature the W+h strategy computes, as a real number. -/
noncomputable def whTdb (W h : ℝ) : ℝ :=
  ((bisectR (fun T => enthalpyR T W) h 0.01 100 (-50, 100)).1 +
    (bisectR (fun T => enthalpyR T W) h 0.01 100 (-50, 100)).2) / 2

/-- The keys tested by the dispatch chain of solveState. -/
def dispatchKeys : List String :=
  ["rh+tdb", "tdb+w", "h+tdb", "tdb+twb", "tdp+tdb", "h+w", "pv+tdb", "rh+w"]

/-- The seven pair keys whose dispatch test can actually match. -/
def reachableKeys : List String :=
  ["rh+tdb", "tdb+w", "h+tdb", "tdb+twb", "h+w", "pv+tdb", "rh+w"]

/-- Whether the two kinds form a pair with a reachable resolution strategy. -/
def supportedPair (a b : VarKind) : Bool := decide (sortedKey a b ∈ reachableKeys)

@[simp] theorem jnum_eq (x : ℝ) : jnum x = some x := rfl

@[simp] theorem jadd_some (x y : ℝ) : jadd (some x) (some y) = some (x + y) := rfl

@[simp] theorem jadd_none_left (b : JS) : jadd none b = none := rfl

@[simp] theorem jadd_none_right (a : JS) : jadd a none = none := by cases a <;> rfl

@[simp] theorem jsub_some (x y : ℝ) : jsub (some x) (some y) = some (x - y) := rfl

@[simp] theorem jsub_none_left (b : JS) : jsub none b = none := rfl

@[simp] theorem jsub_none_right (a : JS) : jsub a none = none := by cases a <;> rfl

@[simp] theorem jmul_some (x y : ℝ) : jmul (some x) (some y) = some (x * y) := rfl

@[simp] theorem jmul_none_left (b : JS) : jmul none b = none := rfl

@[simp] theorem jmul_none_right (a : JS) : jmul a none = none := by cases a <;> rfl

@[simp] theorem jdiv_none_left (b : JS) : jdiv none b = none := rfl

@[simp] theorem jdiv_none_right (a : JS) : jdiv a none = none := by cases a <;> rfl

theorem jdiv_some_of_ne (x : ℝ) {y : ℝ} (hy : y ≠ 0) :
    jdiv (some x) (some y) = some (x / y) := by
  simp [jdiv, hy]

@[simp] theorem jexp_some (x : ℝ) : jexp (some x) = some (Real.exp x) := rfl

@[simp] theorem jexp_none : jexp none = none := rfl

theorem jlog_some_of_pos {x : ℝ} (hx : 0 < x) :
    jlog (some x) = some (Real.log x) := by
  simp [jlog, not_le.mpr hx]

@[simp] theorem jlog_none : jlog none = none := rfl

@[simp] theorem jmax_some (x y : ℝ) : jmax (some x) (some y) = some (max x y) := rfl

@[simp] theorem jmax_none_left (b : JS) : jmax none b = none := rfl

@[simp] theorem jmin_some (x y : ℝ) : jmin (some x) (some y) = some (min x y) := rfl

@[simp] theorem jlt_some (x y : ℝ) : jlt (some x) (some y) ↔ x < y := Iff.rfl

@[simp] theorem jlt_none_left (b : JS) : ¬ jlt none b := by cases b <;> exact not_false

@[simp] theorem jlt_none_right (a : JS) : ¬ jlt a none := by cases a <;> exact not_false

@[simp] theorem jgt_some (x y : ℝ) : jgt (some x) (some y) ↔ y < x := Iff.rfl

@[simp] theorem jgt_none_left (b : JS) : ¬ jgt none b := by cases b <;> exact not_false

@[simp] theorem jgt_none_right (a : JS) : ¬ jgt a none := by cases a <;> exact not_false

@[simp] theorem jge_some (x y : ℝ) : jge (some x) (some y) ↔ y ≤ x := Iff.rfl

@[simp] theorem jge_none_left (b : JS) : ¬ jge none b := by cases b <;> exact not_false

@[simp] theorem jge_none_right (a : JS) : ¬ jge a none := by cases a <;> exact not_false


theorem enthalpy_jnum (T W : ℝ) :
    enthalpy (some T) (some W) = some (enthalpyR T W) := rfl


theorem bisectLoop_jnum (f : JS → JS) (g : ℝ → ℝ) (t tol : ℝ)
    (hf : ∀ x : ℝ, f (some x) = some (g x)) :
    ∀ (n : ℕ) (lo hi : ℝ),
      bisectLoop f (some t) tol n (some lo, some hi) =
        (some (bisectR g t tol n (lo, hi)).1, some (bisectR g t tol n (lo, hi)).2) := by
  intro n
  induction n with
  | zero => intro lo hi; simp [bisectLoop, bisectR]
  | succ n ih =>
    intro lo hi
    rw [bisectLoop, bisectR]
    by_cases hg : tol < hi - lo
    · rw [if_pos (by simpa [jgt, jlt] using hg), if_pos hg]
      have hmid : jdiv (jadd (some lo) (some hi)) (jnum 2) = some ((lo + hi) / 2) := by
        rw [jadd_some, jnum_eq, jdiv_some_of_ne _ two_ne_zero]
      simp only [hmid, hf]
      by_cases hb : g ((lo + hi) / 2) < t
      · rw [if_pos (by simpa [jlt] using hb), if_pos hb, ih]
      · rw [if_neg (by simpa [jlt] using hb), if_neg hb, ih]
    · rw [if_neg (by simpa [jgt, jlt] using hg), if_neg hg]

theorem bisectLoop_exit (f : JS → JS) (t : JS) (tol : ℝ) (lo hi : JS)
    (h : ¬ jgt (jsub hi lo) (jnum tol)) :
    ∀ n, bisectLoop f t tol n (lo, hi) = (lo, hi)
  | 0 => rfl
  | Nat.succ n => by rw [bisectLoop, if_neg h]

/-- Once the bracket width is small enough for the given fuel, extra fuel is
irrelevant: the loop exits on the tolerance test. -/
theorem bisectLoop_stable (f : JS → JS) (t : JS) (tol : ℝ) :
    ∀ (n : ℕ) (lo hi : ℝ), hi - lo ≤ tol * 2 ^ n →
      ∀ m, bisectLoop f t tol (n + m) (some lo, some hi) =
        bisectLoop f t tol n (some lo, some hi) := by
  intro n
  induction n with
  | zero =>
    intro lo hi hw m
    have hguard : ¬ jgt (jsub (some hi) (some lo)) (jnum tol) := by
      simp only [jsub_some, jnum_eq, jgt, jlt]
      simpa using hw
    rw [Nat.zero_add, bisectLoop_exit f t tol _ _ hguard,
      bisectLoop_exit f t tol _ _ hguard]
  | succ n ih =>
    intro lo hi hw m
    have hsucc : n + 1 + m = (n + m) + 1 := by omega
    rw [hsucc, bisectLoop, bisectLoop]
    by_cases hguard : jgt (jsub (some hi) (some lo)) (jnum tol)
    · rw [if_pos hguard, if_pos hguard]
      have hmid : jdiv (jadd (some lo) (some hi)) (jnum 2) = some ((lo + hi) / 2) := by
        rw [jadd_some, jnum_eq, jdiv_some_of_ne _ two_ne_zero]
      simp only [hmid]
      have h1 : hi - (lo + hi) / 2 ≤ tol * 2 ^ n := by
        rw [pow_succ] at hw; linarith
      have h2 : (lo + hi) / 2 - lo ≤ tol * 2 ^ n := by
        rw [pow_succ] at hw; linarith
      by_cases hb : jlt (f (some ((lo + hi) / 2))) t
      · rw [if_pos hb, if_pos hb, ih _ _ h1]
      · rw [if_neg hb, if_neg hb, ih _ _ h2]
    · rw [if_neg hguard, if_neg hguard]

/-- Both bracket endpoints stay finite and above any common lower bound,
whatever the test function does. -/
theorem bisectLoop_lowerBound (f : JS → JS) (t : JS) (tol B : ℝ) :
    ∀ (n : ℕ) (lo hi : ℝ), B ≤ lo → B ≤ hi →
      ∃ lo2 hi2, bisectLoop f t tol n (some lo, some hi) = (some lo2, some hi2) ∧
        B ≤ lo2 ∧ B ≤ hi2 := by
  intro n
  induction n with
  | zero => intro lo hi h1 h2; exact ⟨lo, hi, rfl, h1, h2⟩
  | succ n ih =>
    intro lo hi h1 h2
    rw [bisectLoop]
    by_cases hguard : jgt (jsub (some hi) (some lo)) (jnum tol)
    · rw [if_pos hguard]
      have hmid : jdiv (jadd (some lo) (some hi)) (jnum 2) = some ((lo + hi) / 2) := by
        rw [jadd_some, jnum_eq, jdiv_some_of_ne _ two_ne_zero]
      simp only [hmid]
      have hm : B ≤ (lo + hi) / 2 := by linarith
      by_cases hb : jlt (f (some ((lo + hi) / 2))) t
      · rw [if_pos hb]; exact ih _ _ hm h2
      · rw [if_neg hb]; exact ih _ _ h1 hm
    · rw [if_neg hguard]; exact ⟨lo, hi, rfl, h1, h2⟩

theorem bisectR_upperBound (g : ℝ → ℝ) (t tol C : ℝ) :
    ∀ (n : ℕ) (lo hi : ℝ), lo ≤ C → hi ≤ C →
      (bisectR g t tol n (lo, hi)).1 ≤ C ∧ (bisectR g t tol n (lo, hi)).2 ≤ C := by
  intro n
  induction n with
  | zero => intro lo hi h1 h2; exact ⟨h1, h2⟩
  | succ n ih =>
    intro lo hi h1 h2
    rw [bisectR]
    by_cases hguard : tol < hi - lo
    · rw [if_pos hguard]
      have hm : (lo + hi) / 2 ≤ C := by linarith
      by_cases hb : g ((lo + hi) / 2) < t
      · rw [if_pos hb]; exact ih _ _ hm h2
      · rw [if_neg hb]; exact ih _ _ h1 hm
    · rw [if_neg hguard]; exact ⟨h1, h2⟩

theorem bisectR_order (g : ℝ → ℝ) (t tol : ℝ) (htol : 0 < tol) :
    ∀ (n : ℕ) (lo hi : ℝ), lo ≤ hi →
      (bisectR g t tol n (lo, hi)).1 ≤ (bisectR g t tol n (lo, hi)).2 := by
  intro n
  induction n with
  | zero => intro lo hi h; exact h
  | succ n ih =>
    intro lo hi h
    rw [bisectR]
    by_cases hguard : tol < hi - lo
    · rw [if_pos hguard]
      have hm1 : lo ≤ (lo + hi) / 2 := by linarith
      have hm2 : (lo + hi) / 2 ≤ hi := by linarith
      by_cases hb : g ((lo + hi) / 2) < t
      · rw [if_pos hb]; exact ih _ _ hm2
      · rw [if_neg hb]; exact ih _ _ hm1
    · rw [if_neg hguard]; exact h

theorem bisectR_width (g : ℝ → ℝ) (t tol : ℝ) :
    ∀ (n : ℕ) (lo hi : ℝ),
      (bisectR g t tol n (lo, hi)).2 - (bisectR g t tol n (lo, hi)).1 ≤
        max tol ((hi - lo) / 2 ^ n) := by
  intro n
  induction n with
  | zero =>
    intro lo hi
    rw [bisectR, pow_zero, div_one]
    exact le_max_right tol (hi - lo)
  | succ n ih =>
    intro lo hi
    rw [bisectR]
    by_cases hguard : tol < hi - lo
    · rw [if_pos hguard]
      have hhalf : ∀ a b : ℝ, a = b → max tol a ≤ max tol b := by
        intro a b hab; rw [hab]
      by_cases hb : g ((lo + hi) / 2) < t
      · rw [if_pos hb]
        refine le_trans (ih ((lo + hi) / 2) hi) (hhalf _ _ ?_)
        rw [pow_succ]; ring
      · rw [if_neg hb]
        refine le_trans (ih lo ((lo + hi) / 2)) (hhalf _ _ ?_)
        rw [pow_succ]; ring
    · rw [if_neg hguard]
      exact le_trans (not_lt.mp hguard) (le_max_left _ _)


theorem solveFromWH_Tdb (W h P : ℝ) :
    Except.map Core.Tdb (solveFromWH (jnum W) (jnum h) P) =
      Except.ok (jnum (whTdb W h)) := by
  have hcorr := bisectLoop_jnum (fun T => enthalpy T (some W)) (fun T => enthalpyR T W)
    h 0.01 (fun x => rfl) 100 (-50) 100
  simp only [solveFromWH, jnum_eq, hcorr, jadd_some, Except.map]
  rw [jdiv_some_of_ne _ two_ne_zero]
  rfl

/-- Whatever the humidity ratio argument is, the wet-bulb procedure returns
either a non-finite value or a temperature at least -50, because its bracket
endpoints never drop below -50. -/
theorem wetBulbTemperature_cases (W : JS) (t P : ℝ) (ht : -50 ≤ t) :
    wetBulbTemperature (some t) W P = none ∨
      ∃ w, wetBulbTemperature (some t) W P = some w ∧ -50 ≤ w := by
  rw [wetBulbTemperature]
  cases hT : temperatureFromSaturationPressure (vaporPressureFromHumidityRatio W P) with
  | none =>
    left
    have hlow : jmax (jsub none (jnum 5)) (jnum (-50)) = none := rfl
    rw [hlow]
    have hguard : ¬ jgt (jsub (some t) none) (jnum 0.001) := by
      rw [jsub_none_right]; exact jgt_none_left _
    rw [bisectLoop_exit _ _ _ _ _ hguard]
    rfl
  | some d =>
    right
    simp only [jnum_eq, jsub_some, jmax_some]
    obtain ⟨lo2, hi2, heq, hlo, hhi⟩ :=
      bisectLoop_lowerBound (fun T => enthalpy T (saturationHumidityRatio T P))
        (enthalpy (some t) W) 0.001 (-50) 50 (max (d - 5) (-50)) t (le_max_right _ _) ht
    rw [heq, jadd_some, jdiv_some_of_ne _ two_ne_zero]
    exact ⟨(lo2 + hi2) / 2, rfl, by linarith⟩


theorem solveState_unsupported (v1 v2 : VarKind) (x1 x2 : JS) (P m : ℝ)
    (hne : v1 ≠ v2) (hkey : sortedKey v1 v2 ∉ dispatchKeys) :
    solveState ⟨some v1, some x1, some v2, some x2, P, m⟩ =
      Except.error (Err.unsupportedPair v1.keyStr v2.keyStr) := by
  simp only [dispatchKeys, List.mem_cons, List.not_mem_nil, or_false, not_or] at hkey
  obtain ⟨h1, h2, h3, h4, h5, h6, h7, h8⟩ := hkey
  simp only [solveState]
  rw [if_neg hne, if_neg h1, if_neg h2, if_neg h3, if_neg h4, if_neg h5, if_neg h6,
    if_neg h7, if_neg h8]
  rfl

theorem bisectR_invariant (g : ℝ → ℝ) (t tol : ℝ) :
    ∀ (n : ℕ) (lo hi : ℝ), g lo ≤ t → t ≤ g hi →
      g (bisectR g t tol n (lo, hi)).1 ≤ t ∧ t ≤ g (bisectR g t tol n (lo, hi)).2 := by
  intro n
  induction n with
  | zero => intro lo hi h1 h2; exact ⟨h1, h2⟩
  | succ n ih =>
    intro lo hi h1 h2
    rw [bisectR]
    by_cases hguard : tol < hi - lo
    · rw [if_pos hguard]
      by_cases hb : g ((lo + hi) / 2) < t
      · rw [if_pos hb]; exact ih _ _ (le_of_lt hb) h2
      · rw [if_neg hb]; exact ih _ _ h1 (not_lt.mp hb)
    · rw [if_neg hguard]; exact ⟨h1, h2⟩

theorem except_map_map {α β γ ε : Type} (f : α → β) (g : β → γ) (r : Except ε α) :
    Except.map g (Except.map f r) = Except.map (fun a => g (f a)) r := by
  cases r <;> rfl

theorem except_map_congr {α β ε : Type} (f g : α → β) (r : Except ε α)
    (h : ∀ a, f a = g a) : Except.map f r = Except.map g r := by
  cases r with
  | error e => rfl
  | ok a => simp only [Except.map, h a]

@[simp] theorem except_map_error_eq {α β ε : Type} (f : α → β) (e : ε) :
    Except.map f (Except.error e) = (Except.error e : Except ε β) := rfl

@[simp] theorem except_map_ok_eq {α β ε : Type} (f : α → β) (a : α) :
    Except.map f (Except.ok a) = (Except.ok (f a) : Except ε β) := rfl

/--
C3: the claim says an out-of-range RH input makes solveState fail for both
RH-carrying pairs.  Counterexample: the RH+W strategy performs no validation,
so an RH input of -5 percent flows through and is returned in the state.
-/
theorem c3_counterexample :
    Except.map (fun s => s.RH)
      (solveState ⟨some VarKind.rh, some (jnum (-5)), some VarKind.w,
        some (jnum 0.01), 101325, 1⟩) = Except.ok (jnum (-5)) := by
  simp +decide [solveState, sortedKey, VarKind.keyStr, solveFromRHW, attachFlows,
    Except.map]

/--
C3 amended: only the Tdb+RH strategy validates that the RH input lies in
[0,100] and fails immediately with the input error; the RH+W strategy
performs no such validation.
-/
theorem c3_amended (x y : JS) (P m : ℝ)
    (hy : jlt y (jnum 0) ∨ jgt y (jnum 100)) :
    solveState ⟨some VarKind.tdb, some x, some VarKind.rh, some y, P, m⟩ =
      Except.error Err.rhRange := by
  have hy2 : jlt y (some 0) ∨ jgt y (some 100) := by simpa using hy
  simp +decide [solveState, sortedKey, VarKind.keyStr, solveFromTdbRH, hy2]

/-- Witness for C3 amended at RH = 150. -/
theorem c3_amended_witness :
    (jlt (jnum 150) (jnum 0) ∨ jgt (jnum 150) (jnum 100)) ∧
      solveState ⟨some VarKind.tdb, some (jnum 20), some VarKind.rh,
        some (jnum 150), 101325, 1⟩ = Except.error Err.rhRange :=
  ⟨Or.inr ((jgt_some 150 100).mpr (by norm_num)),
    c3_amended (jnum 20) (jnum 150) 101325 1
      (Or.inr ((jgt_some 150 100).mpr (by norm_num)))⟩

/--
C1: the claim says every state solveState returns has RH between 0 and 100.
Counterexample: the RH+W strategy returns the unvalidated RH input, so an
input RH of 150 percent yields a returned state whose RH field is 150.
-/
theorem c1_counterexample :
    Except.map (fun s => s.RH)
      (solveState ⟨some VarKind.rh, some (jnum 150), some VarKind.w,
        some (jnum 0.01), 101325, 1⟩) = Except.ok (jnum 150) ∧ (100 : ℝ) < 150 := by
  constructor
  · simp +decide [solveState, sortedKey, VarKind.keyStr, solveFromRHW, attachFlows,
      Except.map]
  · norm_num

/--
C5: the claim says eight pairs, among them Tdb+Tdp, have a registered
strategy, and that identical kinds give the unsupported-pair error.
Counterexample: the dispatch chain compares the sorted key "tdb+tdp"
against the constant "tdp+tdb", so the Tdb+Tdp pair falls through to the
unsupported-pair error.
-/
theorem c5_counterexample :
    solveState ⟨some VarKind.tdb, some (jnum 20), some VarKind.tdp,
      some (jnum 10), 101325, 1⟩ =
      Except.error (Err.unsupportedPair "tdb" "tdp") := by
  simp +decide [solveState, sortedKey, VarKind.keyStr]

/--
C5 amended: exactly the seven pair keys in reachableKeys reach a strategy;
the Tdb+Tdp pair falls through to the unsupported-pair error in both
argument orders; identical kinds fail earlier with the equal-variables
input error; and every pair whose sorted key is not a dispatch key fails
with the unsupported-pair error before any formula is evaluated.
-/
theorem c5_amended :
    (∀ (x y : JS) (P m : ℝ),
      solveState ⟨some VarKind.tdb, some x, some VarKind.tdp, some y, P, m⟩ =
          Except.error (Err.unsupportedPair "tdb" "tdp") ∧
        solveState ⟨some VarKind.tdp, some x, some VarKind.tdb, some y, P, m⟩ =
          Except.error (Err.unsupportedPair "tdp" "tdb")) ∧
    (∀ (v : VarKind) (x y : JS) (P m : ℝ),
      solveState ⟨some v, some x, some v, some y, P, m⟩ =
        Except.error Err.equalVars) ∧
    (∀ (v1 v2 : VarKind) (x y : JS) (P m : ℝ), v1 ≠ v2 →
      sortedKey v1 v2 ∉ dispatchKeys →
      solveState ⟨some v1, some x, some v2, some y, P, m⟩ =
        Except.error (Err.unsupportedPair v1.keyStr v2.keyStr)) ∧
    (∀ (x y : JS) (P m : ℝ),
      solveState ⟨some VarKind.tdb, some x, some VarKind.rh, some y, P, m⟩ =
        Except.map (attachFlows VarKind.tdb VarKind.rh x y m)
          (solveFromTdbRH x y P)) ∧
    (∀ (x y : JS) (P m : ℝ),
      solveState ⟨some VarKind.tdb, some x, some VarKind.w, some y, P, m⟩ =
        Except.map (attachFlows VarKind.tdb VarKind.w x y m)
          (solveFromTdbW x y P)) ∧
    (∀ (x y : JS) (P m : ℝ),
      solveState ⟨some VarKind.tdb, some x, some VarKind.h, some y, P, m⟩ =
        Except.map (attachFlows VarKind.tdb VarKind.h x y m)
          (solveFromTdbH x y P)) ∧
    (∀ (x y : JS) (P m : ℝ),
      solveState ⟨some VarKind.tdb, some x, some VarKind.twb, some y, P, m⟩ =
        Except.map (attachFlows VarKind.tdb VarKind.twb x y m)
          (solveFromTdbTwb x y P)) ∧
    (∀ (x y : JS) (P m : ℝ),
      solveState ⟨some VarKind.tdb, some x, some VarKind.pv, some y, P, m⟩ =
        Except.map (attachFlows VarKind.tdb VarKind.pv x y m)
          (solveFromTdbPv x y P)) ∧
    (∀ (x y : JS) (P m : ℝ),
      solveState ⟨some VarKind.w, some x, some VarKind.h, some y, P, m⟩ =
        Except.map (attachFlows VarKind.w VarKind.h x y m)
          (solveFromWH x y P)) ∧
    (∀ (x y : JS) (P m : ℝ),
      solveState ⟨some VarKind.rh, some x, some VarKind.w, some y, P, m⟩ =
        Except.map (attachFlows VarKind.rh VarKind.w x y m)
          (solveFromRHW x y P)) := by
  refine ⟨?_, ?_, ?_, ?_, ?_, ?_, ?_, ?_, ?_, ?_⟩
  · intro x y P m
    constructor
    · exact solveState_unsupported _ _ _ _ _ _ (by decide) (by decide)
    · exact solveState_unsupported _ _ _ _ _ _ (by decide) (by decide)
  · intro v x y P m
    simp [solveState]
  · intro v1 v2 x y P m hne hkey
    exact solveState_unsupported _ _ _ _ _ _ hne hkey
  all_goals intro x y P m
  all_goals simp +decide [solveState, sortedKey, VarKind.keyStr]

/-- Witness for C5 amended, applying the general unsupported-pair clause to
the Twb+Tdp pair. -/
theorem c5_amended_witness :
    (VarKind.twb ≠ VarKind.tdp ∧ sortedKey VarKind.twb VarKind.tdp ∉ dispatchKeys) ∧
      solveState ⟨some VarKind.twb, some (jnum 1), some VarKind.tdp,
        some (jnum 2), 101325, 1⟩ =
        Except.error (Err.unsupportedPair "twb" "tdp") :=
  ⟨⟨by decide, by decide⟩,
    c5_amended.2.2.1 VarKind.twb VarKind.tdp (jnum 1) (jnum 2) 101325 1
      (by decide) (by decide)⟩

/--
C9: the claim says any call selecting the mass-flow or volume-flow kind
fails with the unsupported-pair error.  Counterexample: selecting m_da for
both inputs fails with the equal-variables input error instead, which is a
different error value.
-/
theorem c9_counterexample :
    solveState ⟨some VarKind.m_da, some (jnum 1), some VarKind.m_da,
        some (jnum 2), 101325, 1⟩ = Except.error Err.equalVars ∧
      Err.equalVars ≠ Err.unsupportedPair "m_da" "m_da" := by
  constructor
  · simp [solveState]
  · decide

/--
C9 amended: a call selecting m_da or v_dot fails before any strategy runs,
with the unsupported-pair error when the two kinds differ (and with the
input error otherwise), so every state solveState returns has m_da equal
to the configured m_da_ref and V_dot equal to (m_da_ref / rho) * 3.6.
-/
theorem c9_amended :
    (∀ (v1 v2 : VarKind) (x y : JS) (P m : ℝ),
      (v1 = VarKind.m_da ∨ v1 = VarKind.v_dot ∨
        v2 = VarKind.m_da ∨ v2 = VarKind.v_dot) → v1 ≠ v2 →
      solveState ⟨some v1, some x, some v2, some y, P, m⟩ =
        Except.error (Err.unsupportedPair v1.keyStr v2.keyStr)) ∧
    (∀ i : Inputs,
      Except.map (fun s => s.m_da) (solveState i) =
          Except.map (fun _ => jnum i.m_da_ref) (solveState i) ∧
        Except.map (fun s => s.V_dot) (solveState i) =
          Except.map (fun s => volumetricFlow (jnum i.m_da_ref) s.rho)
            (solveState i)) := by
  constructor
  · intro v1 v2 x y P m hflow hne
    apply solveState_unsupported v1 v2 x y P m hne
    rcases hflow with h | h | h | h
    · subst h
      cases v2 <;> first | exact absurd rfl hne | decide
    · subst h
      cases v2 <;> first | exact absurd rfl hne | decide
    · subst h
      cases v1 <;> first | exact absurd rfl hne | decide
    · subst h
      cases v1 <;> first | exact absurd rfl hne | decide
  · intro i
    obtain ⟨ov1, ox1, ov2, ox2, P, m⟩ := i
    rcases ov1 with _ | v1 <;> rcases ov2 with _ | v2 <;>
      rcases ox1 with _ | x1 <;> rcases ox2 with _ | x2 <;>
      try exact ⟨rfl, rfl⟩
    by_cases hv : v1 = v2
    · refine ⟨?_, ?_⟩ <;> simp [solveState, hv]
    · cases v1 <;> cases v2 <;> first
        | exact absurd rfl hv
        | (refine ⟨?_, ?_⟩ <;>
            simp +decide [solveState, sortedKey, VarKind.keyStr, except_map_map,
              attachFlows, volumetricFlow])

/--
C7: solveState is order-independent in its two inputs: for every supported
pair, swapping the two (kind, value) arguments yields the same result,
state or error.  In particular Tdb+RH and RH+Tdb give identical states.
-/
theorem c7_order_independence (v1 v2 : VarKind) (x y : JS) (P m : ℝ)
    (hs : supportedPair v1 v2 = true) :
    solveState ⟨some v1, some x, some v2, some y, P, m⟩ =
      solveState ⟨some v2, some y, some v1, some x, P, m⟩ := by
  cases v1 <;> cases v2 <;> first
    | exact absurd hs (by decide)
    | (simp +decide [solveState, sortedKey, VarKind.keyStr]
       exact except_map_congr _ _ _ (fun c => by simp +decide [attachFlows]))

/-- Witness for C7 at the Tdb+RH pair with the reference-scenario values. -/
theorem c7_witness :
    supportedPair VarKind.tdb VarKind.rh = true ∧
      solveState ⟨some VarKind.tdb, some (jnum 40.227), some VarKind.rh,
          some (jnum 50.456), 101325, 1⟩ =
        solveState ⟨some VarKind.rh, some (jnum 50.456), some VarKind.tdb,
          some (jnum 40.227), 101325, 1⟩ :=
  ⟨by decide,
    c7_order_independence VarKind.tdb VarKind.rh (jnum 40.227) (jnum 50.456)
      101325 1 (by decide)⟩

/--
C2: the claim says every strategy recomputes Twb through the wet-bulb
bisection, even when Twb was an input.  Counterexample: the Tdb+Twb
strategy returns the raw input Twb.  With Tdb 30 and Twb -80 the state
comes back without error carrying Twb = -80, while the wet-bulb procedure
applied to the resolved Tdb and W can never return a value below -50.
-/
theorem c2_counterexample :
    Except.map (fun s => s.Twb)
      (solveState ⟨some VarKind.tdb, some (jnum 30), some VarKind.twb,
        some (jnum (-80)), 101325, 1⟩) = Except.ok (jnum (-80)) ∧
    Except.map (fun s => s.Twb)
      (solveState ⟨some VarKind.tdb, some (jnum 30), some VarKind.twb,
        some (jnum (-80)), 101325, 1⟩) ≠
      Except.map (fun s => wetBulbTemperature s.Tdb s.W 101325)
        (solveState ⟨some VarKind.tdb, some (jnum 30), some VarKind.twb,
          some (jnum (-80)), 101325, 1⟩) := by
  have hg : ¬ (30 : ℝ) < -80 := by norm_num
  have h1 : Except.map (fun s => s.Twb)
      (solveState ⟨some VarKind.tdb, some (jnum 30), some VarKind.twb,
        some (jnum (-80)), 101325, 1⟩) = Except.ok (jnum (-80)) := by
    simp +decide [solveState, sortedKey, VarKind.keyStr, solveFromTdbTwb, hg,
      attachFlows]
  have h2 : Except.map (fun s => s.Tdb)
      (solveState ⟨some VarKind.tdb, some (jnum 30), some VarKind.twb,
        some (jnum (-80)), 101325, 1⟩) = Except.ok (jnum 30) := by
    simp +decide [solveState, sortedKey, VarKind.keyStr, solveFromTdbTwb, hg,
      attachFlows]
  refine ⟨h1, ?_⟩
  intro heq
  cases hst : solveState ⟨some VarKind.tdb, some (jnum 30), some VarKind.twb,
      some (jnum (-80)), 101325, 1⟩ with
  | error e => rw [hst] at h1; exact absurd h1 (by simp)
  | ok s =>
    rw [hst] at heq h1 h2
    simp only [except_map_ok_eq, Except.ok.injEq, jnum_eq] at heq h1 h2
    rw [h1, h2] at heq
    rcases wetBulbTemperature_cases s.W 30 101325 (by norm_num) with hnone |
      ⟨w, hw, hwge⟩
    · rw [hnone] at heq
      exact Option.some_ne_none _ heq
    · rw [hw] at heq
      have hwv : (-80 : ℝ) = w := Option.some.inj heq
      linarith

/--
C2 amended: every strategy except Tdb+Twb stores in the Twb field the
value wetBulbTemperature computed at the resolved Tdb and W; the Tdb+Twb
strategy stores the raw input Twb instead.
-/
theorem c2_amended :
    (∀ (Tdb RH : JS) (P : ℝ),
      Except.map Core.Twb (solveFromTdbRH Tdb RH P) =
        Except.map (fun c => wetBulbTemperature c.Tdb c.W P)
          (solveFromTdbRH Tdb RH P)) ∧
    (∀ (Tdb W : JS) (P : ℝ),
      Except.map Core.Twb (solveFromTdbW Tdb W P) =
        Except.map (fun c => wetBulbTemperature c.Tdb c.W P)
          (solveFromTdbW Tdb W P)) ∧
    (∀ (Tdb h : JS) (P : ℝ),
      Except.map Core.Twb (solveFromTdbH Tdb h P) =
        Except.map (fun c => wetBulbTemperature c.Tdb c.W P)
          (solveFromTdbH Tdb h P)) ∧
    (∀ (Tdb Tdp : JS) (P : ℝ),
      Except.map Core.Twb (solveFromTdbTdp Tdb Tdp P) =
        Except.map (fun c => wetBulbTemperature c.Tdb c.W P)
          (solveFromTdbTdp Tdb Tdp P)) ∧
    (∀ (W h : JS) (P : ℝ),
      Except.map Core.Twb (solveFromWH W h P) =
        Except.map (fun c => wetBulbTemperature c.Tdb c.W P)
          (solveFromWH W h P)) ∧
    (∀ (Tdb Pv : JS) (P : ℝ),
      Except.map Core.Twb (solveFromTdbPv Tdb Pv P) =
        Except.map (fun c => wetBulbTemperature c.Tdb c.W P)
          (solveFromTdbPv Tdb Pv P)) ∧
    (∀ (RH W : JS) (P : ℝ),
      Except.map Core.Twb (solveFromRHW RH W P) =
        Except.map (fun c => wetBulbTemperature c.Tdb c.W P)
          (solveFromRHW RH W P)) ∧
    (∀ (Tdb Twb : JS) (P : ℝ),
      Except.map Core.Twb (solveFromTdbTwb Tdb Twb P) =
        Except.map (fun _ => Twb) (solveFromTdbTwb Tdb Twb P)) := by
  refine ⟨?_, ?_, ?_, ?_, ?_, ?_, ?_, ?_⟩
  · intro Tdb RH P
    simp only [solveFromTdbRH]
    split_ifs <;> rfl
  · intro Tdb W P
    simp only [solveFromTdbW]
    split_ifs <;> rfl
  · intro Tdb h P
    rfl
  · intro Tdb Tdp P
    simp only [solveFromTdbTdp]
    split_ifs <;> rfl
  · intro W h P
    rfl
  · intro Tdb Pv P
    simp only [solveFromTdbPv]
    split_ifs <;> rfl
  · intro RH W P
    rfl
  · intro Tdb Twb P
    simp only [solveFromTdbTwb]
    split_ifs <;> rfl

/--
C10: the Tdb+h and W+h strategies always store the input target in the h
field and never raise an error, even for unattainable targets; for the
unattainable target h = 1000000 with W = 0 the W+h bisection saturates at
the upper temperature bracket endpoint and the stored h differs from the
recomputed enthalpy by far more than the 0.01 tolerance.
-/
theorem c10_h_field :
    (∀ (Tdb h : JS) (P : ℝ),
      Except.map Core.h (solveFromTdbH Tdb h P) = Except.ok h) ∧
    (∀ (W h : JS) (P : ℝ),
      Except.map Core.h (solveFromWH W h P) = Except.ok h) ∧
    Except.map Core.Tdb (solveFromWH (jnum 0) (jnum 1000000) 101325) =
      Except.ok (jnum (whTdb 0 1000000)) ∧
    0.01 < 1000000 - enthalpyR (whTdb 0 1000000) 0 := by
  refine ⟨fun Tdb h P => rfl, fun W h P => rfl, solveFromWH_Tdb 0 1000000 101325, ?_⟩
  have h1 := bisectR_upperBound (fun T => enthalpyR T 0) 1000000 0.01 100 100
    (-50) 100 (by norm_num) le_rfl
  have h2 : whTdb 0 1000000 ≤ 100 := by
    rw [whTdb]
    have := h1.1
    have := h1.2
    linarith
  simp only [enthalpyR, CONSTANTS.C_DA, CONSTANTS.H_FG_0, CONSTANTS.H_FG_T]
  nlinarith

/--
C6: every bisection loop terminates within its iteration cap and returns
the midpoint of the final bracket, raising no exception.  The wet-bulb
temperature search has cap 50; the strategy-level searches have cap 100,
and the temperature-domain W+h search provably finishes within 50
iterations (its 150-degree bracket collapses below the 0.01 tolerance in
14 steps), so fuel 100 and fuel 50 give the same bracket.
-/
theorem c6_bisection_caps :
    (∀ (f : JS → JS) (t : JS),
      bisectLoop f t 0.01 100 (jnum (-50), jnum 100) =
        bisectLoop f t 0.01 50 (jnum (-50), jnum 100)) ∧
    (∀ (W h : JS) (P : ℝ),
      Except.map Core.Tdb (solveFromWH W h P) =
        Except.ok (jdiv (jadd
          (bisectLoop (fun T => enthalpy T W) h 0.01 50 (jnum (-50), jnum 100)).1
          (bisectLoop (fun T => enthalpy T W) h 0.01 50 (jnum (-50), jnum 100)).2)
          (jnum 2))) ∧
    (∀ (Tdb W : JS) (P : ℝ),
      wetBulbTemperature Tdb W P =
        jdiv (jadd
          (bisectLoop (fun T => enthalpy T (saturationHumidityRatio T P))
            (enthalpy Tdb W) 0.001 50
            (jmax (jsub (temperatureFromSaturationPressure
              (vaporPressureFromHumidityRatio W P)) (jnum 5)) (jnum (-50)),
              Tdb)).1
          (bisectLoop (fun T => enthalpy T (saturationHumidityRatio T P))
            (enthalpy Tdb W) 0.001 50
            (jmax (jsub (temperatureFromSaturationPressure
              (vaporPressureFromHumidityRatio W P)) (jnum 5)) (jnum (-50)),
              Tdb)).2) (jnum 2)) ∧
    (∀ (Tdb h : JS) (P : ℝ),
      Except.map Core.W (solveFromTdbH Tdb h P) =
        Except.ok (jdiv (jadd
          (bisectLoop (fun Wm => enthalpy Tdb Wm) h 0.000001 100
            (jnum 0, saturationHumidityRatio Tdb P)).1
          (bisectLoop (fun Wm => enthalpy Tdb Wm) h 0.000001 100
            (jnum 0, saturationHumidityRatio Tdb P)).2) (jnum 2))) ∧
    (∀ (Tdb Twb : JS) (P : ℝ),
      Except.map Core.W (solveFromTdbTwb Tdb Twb P) =
        Except.map (fun _ => jdiv (jadd
          (bisectLoop (fun Wm => enthalpy Tdb Wm)
            (enthalpy Twb (saturationHumidityRatio Twb P)) 0.000001 100
            (jnum 0, saturationHumidityRatio Tdb P)).1
          (bisectLoop (fun Wm => enthalpy Tdb Wm)
            (enthalpy Twb (saturationHumidityRatio Twb P)) 0.000001 100
            (jnum 0, saturationHumidityRatio Tdb P)).2) (jnum 2))
          (solveFromTdbTwb Tdb Twb P)) := by
  have hstable : ∀ (f : JS → JS) (t : JS),
      bisectLoop f t 0.01 100 (jnum (-50), jnum 100) =
        bisectLoop f t 0.01 50 (jnum (-50), jnum 100) := by
    intro f t
    exact bisectLoop_stable f t 0.01 50 (-50) 100 (by norm_num) 50
  refine ⟨hstable, ?_, fun Tdb W P => rfl, fun Tdb h P => rfl, ?_⟩
  · intro W h P
    have h50 := hstable (fun T => enthalpy T W) h
    simp only [solveFromWH, except_map_ok_eq, h50]
  · intro Tdb Twb P
    simp only [solveFromTdbTwb]
    split_ifs <;> rfl

/--
C1 amended: the upper clamp to 100 exists only in the Tdb+W and Tdb+Pv
strategies.  For those two, every finite RH field of a state returned
without error lies in [0,100], given a positive total pressure for Tdb+W
and a nonnegative vapor-pressure input for Tdb+Pv.  The other strategies
do not enforce the bounds, as the counterexample shows.
-/
theorem c1_amended :
    (∀ (Tdb W : JS) (P r : ℝ), 0 < P →
      Except.map Core.RH (solveFromTdbW Tdb W P) = Except.ok (some r) →
      0 ≤ r ∧ r ≤ 100) ∧
    (∀ (Tdb : JS) (pv P r : ℝ), 0 ≤ pv →
      Except.map Core.RH (solveFromTdbPv Tdb (jnum pv) P) = Except.ok (some r) →
      0 ≤ r ∧ r ≤ 100) := by
  constructor
  · intro Tdb W P r hP hmap
    simp only [solveFromTdbW] at hmap
    split at hmap
    · exact absurd hmap (by simp)
    rename_i hWneg
    split at hmap
    · exact absurd hmap (by simp)
    simp only [except_map_ok_eq, Except.ok.injEq] at hmap
    cases W with
    | none => simp [vaporPressureFromHumidityRatio, jmin] at hmap
    | some w =>
      have hw0 : 0 ≤ w := by
        by_contra hc
        exact hWneg (by simp only [jnum_eq, jlt_some]; linarith)
      have hden : (0.622 + w : ℝ) ≠ 0 := by positivity
      simp only [vaporPressureFromHumidityRatio, CONSTANTS.K_W, jnum_eq,
        jmul_some, jadd_some] at hmap
      rw [jdiv_some_of_ne (P * w) hden] at hmap
      cases Tdb with
      | none => simp [saturationVaporPressure, jmin] at hmap
      | some t =>
        simp only [saturationVaporPressure, jnum_eq, jmul_some, jadd_some]
          at hmap
        by_cases hdt : (237.7 + t : ℝ) = 0
        · simp [jdiv, hdt, jmin] at hmap
        · rw [jdiv_some_of_ne (17.27 * t) hdt] at hmap
          simp only [jexp_some, jmul_some] at hmap
          have hps : (0:ℝ) < 611.2 * Real.exp (17.27 * t / (237.7 + t)) := by
            positivity
          rw [jdiv_some_of_ne (100 * (P * w / (0.622 + w))) (ne_of_gt hps)]
            at hmap
          simp only [jmin_some, Option.some.injEq] at hmap
          have hrv : 0 ≤ 100 * (P * w / (0.622 + w)) /
              (611.2 * Real.exp (17.27 * t / (237.7 + t))) := by
            have hpv : (0:ℝ) ≤ P * w / (0.622 + w) :=
              div_nonneg (mul_nonneg hP.le hw0) (by positivity)
            positivity
          rw [← hmap]
          exact ⟨le_min hrv (by norm_num), min_le_right _ _⟩
  · intro Tdb pv P r hpv hmap
    simp only [solveFromTdbPv] at hmap
    split at hmap
    · exact absurd hmap (by simp)
    simp only [except_map_ok_eq, Except.ok.injEq] at hmap
    cases Tdb with
    | none => simp [saturationVaporPressure, jmin] at hmap
    | some t =>
      simp only [saturationVaporPressure, jnum_eq, jmul_some, jadd_some]
        at hmap
      by_cases hdt : (237.7 + t : ℝ) = 0
      · simp [jdiv, hdt, jmin] at hmap
      · rw [jdiv_some_of_ne (17.27 * t) hdt] at hmap
        simp only [jexp_some, jmul_some] at hmap
        have hps : (0:ℝ) < 611.2 * Real.exp (17.27 * t / (237.7 + t)) := by
          positivity
        rw [jdiv_some_of_ne (100 * pv) (ne_of_gt hps)] at hmap
        simp only [jmin_some, Option.some.injEq] at hmap
        have hrv : 0 ≤ 100 * pv /
            (611.2 * Real.exp (17.27 * t / (237.7 + t))) :=
          div_nonneg (mul_nonneg (by norm_num) hpv) hps.le
        rw [← hmap]
        exact ⟨le_min hrv (by norm_num), min_le_right _ _⟩

/-- Witness for C1 amended: the Tdb+W strategy at Tdb 20, W 0 returns a
state whose RH field is exactly 0, inside [0,100]. -/
theorem c1_amended_witness :
    (0:ℝ) < 101325 ∧
      Except.map Core.RH (solveFromTdbW (jnum 20) (jnum 0) 101325) =
        Except.ok (some 0) ∧
      ((0:ℝ) ≤ 0 ∧ (0:ℝ) ≤ 100) := by
  have hEval : Except.map Core.RH (solveFromTdbW (jnum 20) (jnum 0) 101325) =
      Except.ok (some 0) := by
    simp only [solveFromTdbW, vaporPressureFromHumidityRatio, CONSTANTS.K_W,
      jnum_eq, jmul_some, jadd_some]
    rw [if_neg (by simp : ¬ jlt (some (0:ℝ)) (some (0:ℝ)))]
    rw [jdiv_some_of_ne ((101325:ℝ) * 0) (by norm_num : (0.622 + 0 : ℝ) ≠ 0)]
    simp only [saturationVaporPressure, jnum_eq, jmul_some, jadd_some]
    rw [jdiv_some_of_ne ((17.27:ℝ) * 20) (by norm_num : (237.7 + 20 : ℝ) ≠ 0)]
    simp only [jexp_some, jmul_some]
    have hps : (0:ℝ) < 611.2 * Real.exp (17.27 * 20 / (237.7 + 20)) := by
      positivity
    rw [jdiv_some_of_ne (100 * ((101325:ℝ) * 0 / (0.622 + 0)))
      (ne_of_gt hps)]
    rw [if_neg (show ¬ jgt (some ((100:ℝ) * (101325 * 0 / (0.622 + 0)) /
        (611.2 * Real.exp (17.27 * 20 / (237.7 + 20))))) (some (100.5:ℝ)) by
      simp only [jgt_some]
      norm_num)]
    simp only [except_map_ok_eq, jmin_some]
    norm_num
  exact ⟨by norm_num, hEval,
    c1_amended.1 (jnum 20) (jnum 0) 101325 0 (by norm_num) hEval⟩

/--
C4: the claim says the infinite humidity ratio produced when Pv is at
least the total pressure is always surfaced as an error.  Counterexample:
with total pressure 500 Pa, Tdb 20 and RH 100 the Tdb+RH strategy computes
Pv = p_sat(20), which exceeds 500 Pa, so humidityRatioFromVaporPressure
returns the non-finite Infinity value and solveState still returns the
state without error, with a non-finite W field.
-/
theorem c4_counterexample :
    Except.map (fun s => s.W)
      (solveState ⟨some VarKind.tdb, some (jnum 20), some VarKind.rh,
        some (jnum 100), 500, 1⟩) = Except.ok none := by
  have hdiv : jdiv (some ((17.27:ℝ) * 20)) (some ((237.7:ℝ) + 20)) =
      some ((17.27 * 20) / (237.7 + 20)) := jdiv_some_of_ne _ (by norm_num)
  have hexp := Real.add_one_le_exp ((17.27 * 20) / (237.7 + 20) : ℝ)
  have hge : jge (jmul (jdiv (some (100:ℝ)) (some (100:ℝ)))
      (saturationVaporPressure (some (20:ℝ)))) (jnum 500) := by
    simp only [saturationVaporPressure, jnum_eq, jmul_some, jadd_some]
    rw [hdiv]
    simp only [jexp_some, jmul_some]
    rw [jdiv_some_of_ne (100:ℝ) (by norm_num : (100:ℝ) ≠ 0)]
    simp only [jmul_some, jge_some]
    nlinarith [hexp, show (1.34:ℝ) ≤ 17.27 * 20 / (237.7 + 20) by norm_num]
  have hW : humidityRatioFromVaporPressure
      (jmul (jdiv (some (100:ℝ)) (some (100:ℝ)))
        (saturationVaporPressure (some (20:ℝ)))) 500 = none := by
    rw [humidityRatioFromVaporPressure, if_pos hge]
  have hA : ¬ (jlt (some (100:ℝ)) (some (0:ℝ)) ∨
      jgt (some (100:ℝ)) (some (100:ℝ))) := by
    simp only [jlt_some, jgt_some]
    norm_num
  simp +decide [solveState, sortedKey, VarKind.keyStr, solveFromTdbRH, hA, hW,
    attachFlows]
  norm_num [attachFlows]

/--
C4 amended: humidityRatioFromVaporPressure indeed yields the non-finite
Infinity value exactly when Pv is at least the total pressure, and the
finite formula otherwise; but the resolution strategies do not all surface
the non-finite result as an error, as the counterexample shows.
-/
theorem c4_amended :
    (∀ (pv P : ℝ), P ≤ pv →
      humidityRatioFromVaporPressure (jnum pv) P = none) ∧
    (∀ (pv P : ℝ), pv < P →
      humidityRatioFromVaporPressure (jnum pv) P =
        jnum (CONSTANTS.K_W * pv / (P - pv))) := by
  constructor
  · intro pv P h
    simp only [humidityRatioFromVaporPressure, jnum_eq]
    rw [if_pos ((jge_some pv P).mpr h)]
  · intro pv P h
    simp only [humidityRatioFromVaporPressure, jnum_eq]
    rw [if_neg (fun hc => absurd ((jge_some pv P).mp hc) (not_le.mpr h))]
    simp only [jmul_some, jsub_some]
    rw [jdiv_some_of_ne _ (ne_of_gt (sub_pos.mpr h))]

/-- Witness for C4 amended at the boundary Pv = P_total and at Pv = 0. -/
theorem c4_amended_witness :
    ((101325:ℝ) ≤ 101325 ∧
      humidityRatioFromVaporPressure (jnum 101325) 101325 = none) ∧
    ((0:ℝ) < 101325 ∧
      humidityRatioFromVaporPressure (jnum 0) 101325 =
        jnum (CONSTANTS.K_W * 0 / (101325 - 0))) :=
  ⟨⟨le_rfl, c4_amended.1 101325 101325 le_rfl⟩,
    ⟨by norm_num, c4_amended.2 0 101325 (by norm_num)⟩⟩

/--
C8: enthalpy is strictly increasing in T for every fixed nonnegative W,
strictly increasing in W for every fixed T in [-50,100], and for every
target between the enthalpies at the bracket endpoints the W+h bisection
lands within 0.01 of the exact root, whose dry-bulb value solveFromWH
returns.
-/
theorem c8_enthalpy_monotone :
    (∀ (W T1 T2 : ℝ), 0 ≤ W → T1 < T2 → enthalpyR T1 W < enthalpyR T2 W) ∧
    (∀ (T W1 W2 : ℝ), -50 ≤ T → T ≤ 100 → W1 < W2 →
      enthalpyR T W1 < enthalpyR T W2) ∧
    (∀ (W h P Troot : ℝ), 0 ≤ W →
      enthalpyR (-50) W ≤ h → h ≤ enthalpyR 100 W → enthalpyR Troot W = h →
      |whTdb W h - Troot| ≤ 0.01 ∧
        Except.map Core.Tdb (solveFromWH (jnum W) (jnum h) P) =
          Except.ok (jnum (whTdb W h))) := by
  have hmono : ∀ (W T1 T2 : ℝ), 0 ≤ W → T1 < T2 →
      enthalpyR T1 W < enthalpyR T2 W := by
    intro W T1 T2 hW h12
    simp only [enthalpyR, CONSTANTS.C_DA, CONSTANTS.H_FG_0, CONSTANTS.H_FG_T]
    nlinarith [mul_pos (sub_pos.mpr h12)
      (show (0:ℝ) < 1.006 + 1.86 * W by linarith)]
  refine ⟨hmono, ?_, ?_⟩
  · intro T W1 W2 hT1 hT2 h12
    simp only [enthalpyR, CONSTANTS.C_DA, CONSTANTS.H_FG_0, CONSTANTS.H_FG_T]
    nlinarith [mul_pos (sub_pos.mpr h12)
      (show (0:ℝ) < 2501 + 1.86 * T by linarith)]
  · intro W h P Troot hW hlo hhi hroot
    refine ⟨?_, solveFromWH_Tdb W h P⟩
    have hinv := bisectR_invariant (fun T => enthalpyR T W) h 0.01 100 (-50)
      100 hlo hhi
    have hord := bisectR_order (fun T => enthalpyR T W) h 0.01 (by norm_num)
      100 (-50) 100 (by norm_num)
    have hwid := bisectR_width (fun T => enthalpyR T W) h 0.01 100 (-50) 100
    have hmax : max (0.01:ℝ) ((100 - -50) / 2 ^ 100) = 0.01 :=
      max_eq_left (by norm_num)
    rw [hmax] at hwid
    have h1 : (bisectR (fun T => enthalpyR T W) h 0.01 100 (-50, 100)).1 ≤
        Troot := by
      by_contra hc
      push_neg at hc
      have hlt := hmono W Troot _ hW hc
      rw [hroot] at hlt
      exact absurd hinv.1 (not_le.mpr hlt)
    have h2 : Troot ≤
        (bisectR (fun T => enthalpyR T W) h 0.01 100 (-50, 100)).2 := by
      by_contra hc
      push_neg at hc
      have hlt := hmono W _ Troot hW hc
      rw [hroot] at hlt
      exact absurd hinv.2 (not_le.mpr hlt)
    rw [whTdb, abs_le]
    constructor <;> linarith

/-- Witness for C8 at W = 0 with target h = 0, whose exact root is T = 0. -/
theorem c8_witness :
    ((0:ℝ) ≤ 0 ∧ (0:ℝ) < 1 ∧ enthalpyR 0 0 < enthalpyR 1 0) ∧
    ((-50:ℝ) ≤ 0 ∧ (0:ℝ) ≤ 100 ∧ (0:ℝ) < 1 ∧
      enthalpyR 0 0 < enthalpyR 0 1) ∧
    (enthalpyR (-50) 0 ≤ 0 ∧ (0:ℝ) ≤ enthalpyR 100 0 ∧ enthalpyR 0 0 = 0 ∧
      |whTdb 0 0 - 0| ≤ 0.01) := by
  have e1 : enthalpyR (-50) 0 ≤ 0 := by
    simp only [enthalpyR, CONSTANTS.C_DA, CONSTANTS.H_FG_0, CONSTANTS.H_FG_T]
    norm_num
  have e2 : (0:ℝ) ≤ enthalpyR 100 0 := by
    simp only [enthalpyR, CONSTANTS.C_DA, CONSTANTS.H_FG_0, CONSTANTS.H_FG_T]
    norm_num
  have e3 : enthalpyR 0 0 = 0 := by
    simp only [enthalpyR, CONSTANTS.C_DA, CONSTANTS.H_FG_0, CONSTANTS.H_FG_T]
    norm_num
  exact ⟨⟨le_rfl, by norm_num,
      c8_enthalpy_monotone.1 0 0 1 le_rfl (by norm_num)⟩,
    ⟨by norm_num, by norm_num, by norm_num,
      c8_enthalpy_monotone.2.1 0 0 1 (by norm_num) (by norm_num) (by norm_num)⟩,
    e1, e2, e3,
    (c8_enthalpy_monotone.2.2 0 0 101325 0 le_rfl e1 e2 e3).1⟩

/-- Witness for C9 amended at the m_da+Tdb pair. -/
theorem c9_amended_witness :
    (VarKind.m_da = VarKind.m_da ∨ VarKind.m_da = VarKind.v_dot ∨
        VarKind.tdb = VarKind.m_da ∨ VarKind.tdb = VarKind.v_dot) ∧
      VarKind.m_da ≠ VarKind.tdb ∧
      solveState ⟨some VarKind.m_da, some (jnum 1), some VarKind.tdb,
        some (jnum 20), 101325, 1⟩ =
        Except.error (Err.unsupportedPair "m_da" "tdb") :=
  ⟨Or.inl rfl, by decide,
    c9_amended.1 VarKind.m_da VarKind.tdb (jnum 1) (jnum 20) 101325 1
      (Or.inl rfl) (by decide)⟩

end Psychro
